import Mathlib

/-!
# Verification of the exercise-finder conversation/agent layer and data models

Shallow embedding, in Lean 4, of the parts of the `exercise-finder` Python
repository that the specification's claims are about:

* the conversation-event log and per-agent filtering
  (`src/exercise_finder/agents/utils.py`, `agents/config.py`);
* the `Exam` filename parsing and serialization
  (`src/exercise_finder/pydantic_models.py`, `constants.py`);
* the vector-store attribute JSON round-trip
  (`QuestionRecord.attributes_for_vector_store`,
  `QuestionRecordVectorStoreAttributes`);
* the exam folder structure validators (`ExamFolderStructure`);
* the per-question skip-and-log loop
  (`services/image_to_question/main.py:process_exam_dir`);
* the vector-store search-result selection
  (`services/vectorstore/main.py:vectorstore_fetch`);
* the image-serving endpoint path containment
  (`web/app/api/v1.py:image`, `paths.py:exam_asset_under_root`);
* multipart part label auto-generation
  (`AgentMultipartQuestionOutput.auto_generate_part_labels`).

Remote model invocations, the filesystem and randomness are abstracted as
explicit oracle parameters; everything else is translated directly from the
Python source.
-/

namespace ExerciseFinder

/-! ## Conversation events (agents layer)

Modelled from the spec: `ConversationEvent` is the tagged union
`{UserMessageEvent, QuestionEvent}` declared in
`exercise_finder/pydantic_models.py` (its class definitions are not among the
provided sources; only the spec's data-model section and the importing modules
describe it).  Each variant carries its payload; events are immutable once
created.  For the claims below only the runtime type tag of an event matters.
-/

/-- Modelled from the spec: the tagged union of conversation events
(`UserMessageEvent` with a user message, `QuestionEvent` with a retrieved
question), immutable once created. -/
inductive ConversationEvent where
  | userMessageEvent (message : String)
  | questionEvent (question : String) (examId : String)
  deriving DecidableEq, Repr

/-- The runtime type tag of a `ConversationEvent` (Python `type(event)`). -/
inductive EventTy where
  | userMessageEvent
  | questionEvent
  deriving DecidableEq, Repr

/-- Python `type(event)` on the event union: the constructor tag. -/
def ConversationEvent.ty : ConversationEvent → EventTy
  | .userMessageEvent _ => .userMessageEvent
  | .questionEvent _ _ => .questionEvent

/-- `exercise_finder/enums.py`: the `AgentName` enum (the keys of the agent
registry). -/
inductive AgentName where
  | get_question_agent
  | images_to_question_agent
  | format_multipart_question_agent
  deriving DecidableEq, Repr

/-- `exercise_finder/agents/config.py`: `agent_name_to_event_mapping` — what
agents receive what events as input. -/
def agent_name_to_event_mapping : AgentName → List EventTy
  | .get_question_agent => [.userMessageEvent, .questionEvent]
  | .images_to_question_agent => [.userMessageEvent]
  | .format_multipart_question_agent => [.userMessageEvent]

/-- `exercise_finder/types.py`: `ConversationHistory = list[ConversationEvent]`. -/
abbrev ConversationHistory := List ConversationEvent

/-- `agents/utils.py:add_event_to_conversation_history`: immutable append
(`[*conversation_history, event]` builds a new list). -/
def add_event_to_conversation_history (conversation_history : ConversationHistory)
    (event : ConversationEvent) : ConversationHistory :=
  conversation_history ++ [event]

/-- `agents/utils.py:filter_conversation_history`: keep exactly the events whose
runtime type is in the agent's allowed-event list.  (The function also computes
`removed` lists and `Counter`s purely for debug logging; they do not affect the
returned value and are omitted.) -/
def filter_conversation_history (conversation_history : ConversationHistory)
    (agentName : AgentName) : ConversationHistory :=
  conversation_history.filter
    (fun event => decide (event.ty ∈ agent_name_to_event_mapping agentName))

/-- `agents/utils.py:run_agent_pipeline`: filter history → build input → run
agent → (optionally) append the wrapped output event.  The remote call
`Runner.run` is abstracted by the `runAgent` oracle; `input_builder` is the
dependency-injected input builder (`build_conversation_history` by default). -/
def run_agent_pipeline {InputItem Output : Type}
    (agentName : AgentName)
    (conversation_history : ConversationHistory)
    (event_factory : Option (Output → ConversationEvent))
    (input_builder : ConversationHistory → List InputItem)
    (runAgent : List InputItem → Output) : Output × ConversationHistory :=
  let filtered_history := filter_conversation_history conversation_history agentName
  let input_items := input_builder filtered_history
  let output := runAgent input_items
  let updated_history :=
    match event_factory with
    | some f => add_event_to_conversation_history conversation_history (f output)
    | none => conversation_history
  (output, updated_history)

/-! ## Multipart question parts (`pydantic_models.py`) -/

/-- `pydantic_models.py:MultipartQuestionPart`: a single part of a multipart
question (`label` is auto-generated when `None`). -/
structure MultipartQuestionPart where
  text : String
  label : Option String
  points : Int
  deriving DecidableEq, Repr

/-- Python `chr(ord('a') + i)` as used by `auto_generate_part_labels`
(`ord 'a' = 97`).  `Char.ofNat` agrees with Python `chr` on every code point
Lean's `Char` can represent (surrogate code points cannot arise from part
lists of practical size). -/
def partLabelFor (i : Nat) : String := (Char.ofNat (97 + i)).toString

/-- `pydantic_models.py:AgentMultipartQuestionOutput.auto_generate_part_labels`
(a pydantic `model_validator(mode="after")`): for each index `i`, a part whose
`label` is `None` gets `chr(ord('a') + i)`; parts with an explicit label are
left unchanged.  `MultipartQuestionOutput` inherits this validator. -/
def auto_generate_part_labels (parts : List MultipartQuestionPart) :
    List MultipartQuestionPart :=
  parts.mapIdx
    (fun i part =>
      if part.label = none then { part with label := some (partLabelFor i) } else part)

/-! ## Exam filename parsing (`pydantic_models.py:Exam`, `constants.py`) -/

/-- `exercise_finder/enums.py`: the `ExamLevel` enum. -/
inductive ExamLevel where
  | VWO
  | HAVO
  | VMBO
  deriving DecidableEq, Repr

/-- The `.value` of an `ExamLevel` member (a `str` enum). -/
def ExamLevel.value : ExamLevel → String
  | .VWO => "VWO"
  | .HAVO => "HAVO"
  | .VMBO => "VMBO"

/-- `constants.py:pdf_acronym_to_level_mapping`. -/
def pdf_acronym_to_level_mapping : List (String × ExamLevel) :=
  [("vw", .VWO), ("hv", .HAVO), ("vm", .VMBO)]

/-- Index (from the front) of the last occurrence of `c` in a char list —
Python `str.rfind` restricted to a single character, returning `none` in place
of `-1`. -/
def lastIdxOf (c : Char) : List Char → Option Nat
  | [] => none
  | a :: as =>
    match lastIdxOf c as with
    | some k => some (k + 1)
    | none => if a = c then some 0 else none

/-- `pathlib.PurePath.stem` on a file name: `name[:i]` when `i = name.rfind(".")`
satisfies `0 < i < len(name) - 1`, else the whole name. -/
def pathStem (name : String) : String :=
  match lastIdxOf '.' name.toList with
  | some i =>
    if 0 < i ∧ i < name.toList.length - 1 then String.mk (name.toList.take i) else name
  | none => name

/-- Python `str.split(sep)` for a single-character separator, over char lists
(`"".split(sep) == [""]`, empty fields are kept). -/
def splitOnChar (sep : Char) : List Char → List (List Char)
  | [] => [[]]
  | c :: cs =>
    let r := splitOnChar sep cs
    if c = sep then [] :: r
    else
      match r with
      | [] => [[c]]
      | g :: gs => (c :: g) :: gs

/-- `file_path.stem.split("-")` as used by `Exam.from_file_path`. -/
def pySplitDash (s : String) : List String :=
  (splitOnChar '-' s.toList).map String.mk

/-- Python `str.lower()`; the acronym keys are ASCII, for which `Char.toLower`
agrees with Python. -/
def pyLower (s : String) : String := String.mk (s.toList.map Char.toLower)

/-- CPython `datetime.strptime(s, "%y")`: the `%y` directive matches exactly
two decimal digits (`_strptime` regex `\d\d`, which additionally covers
non-ASCII Unicode digits that the exam filenames never contain), then the year
is `2000 + yy` for `yy <= 68` and `1900 + yy` otherwise. -/
def strptime_y (s : String) : Option Nat :=
  match s.toList with
  | [a, b] =>
    if a.isDigit && b.isDigit then
      let yy := (a.toNat - 48) * 10 + (b.toNat - 48)
      some (if yy ≤ 68 then 2000 + yy else 1900 + yy)
    else none
  | _ => none

/-- The ASCII whitespace stripped by Python `int(str)` before parsing (Python
also strips other Unicode whitespace, which the exam filenames never
contain). -/
def isPySpace (c : Char) : Bool :=
  c = ' ' || c = '\t' || c = '\n' || c = '\r' || c = '\x0b' || c = '\x0c'

/-- Digits continuation for Python `int(str)`: after a first digit, further
digits may be separated by single underscores (`int("1_0") == 10`), with no
trailing or doubled underscore. -/
def pyDigitsAux : Nat → List Char → Option Nat
  | acc, [] => some acc
  | acc, '_' :: c :: cs =>
    if c.isDigit then pyDigitsAux (acc * 10 + (c.toNat - 48)) cs else none
  | _, ['_'] => none
  | acc, c :: cs =>
    if c.isDigit then pyDigitsAux (acc * 10 + (c.toNat - 48)) cs else none

/-- Nonempty digit run (with optional internal underscores) for Python
`int(str)`. -/
def pyDigits : List Char → Option Nat
  | [] => none
  | c :: cs => if c.isDigit then pyDigitsAux (c.toNat - 48) cs else none

/-- Python `int(str)`: strip surrounding whitespace, optional sign, then a
nonempty digit run (ASCII digits; Python also accepts Unicode digits, which
the exam filenames never contain). -/
def pyIntParse (s : String) : Option Int :=
  let cs := ((s.toList.dropWhile isPySpace).reverse.dropWhile isPySpace).reverse
  match cs with
  | '+' :: rest => (pyDigits rest).map (fun n => (n : Int))
  | '-' :: rest => (pyDigits rest).map (fun n => -(n : Int))
  | rest => (pyDigits rest).map (fun n => (n : Int))

/-- `pydantic_models.py:Exam` (`id`, `year`, `tijdvak`, `level`). -/
structure Exam where
  id : String
  year : Int
  tijdvak : Int
  level : ExamLevel
  deriving DecidableEq, Repr

/-- The body of `Exam.from_file_path` on the already-extracted stem:
`parts = stem.split("-")`, then
`level = pdf_acronym_to_level_mapping[parts[0].lower()]` (a missing key raises
`KeyError`), `year = datetime.strptime(parts[3], "%y").year` (a missing index
raises `IndexError`, a failed parse `ValueError`), `tijdvak = int(parts[4])`.
Exceptions are modelled by `Except.error`, in the evaluation order of the
keyword arguments. -/
def Exam.from_stem (stem : String) : Except String Exam :=
  let parts := pySplitDash stem
  match pdf_acronym_to_level_mapping.lookup (pyLower (parts.headD "")) with
  | none => .error "KeyError: unknown level acronym"
  | some level =>
    match parts[3]? with
    | none => .error "IndexError: year field missing"
    | some p3 =>
      match strptime_y p3 with
      | none => .error "ValueError: year does not match format %y"
      | some year =>
        match parts[4]? with
        | none => .error "IndexError: tijdvak field missing"
        | some p4 =>
          match pyIntParse p4 with
          | none => .error "ValueError: invalid literal for int"
          | some tijdvak =>
            .ok { id := stem, year := (year : Int), tijdvak := tijdvak, level := level }

/-- `pydantic_models.py:Exam.from_file_path`: parse the dash-separated stem of
a file name. -/
def Exam.from_file_path (fileName : String) : Except String Exam :=
  Exam.from_stem (pathStem fileName)

/-- `pydantic_models.py:Exam.__str__`:
`f"exam_{self.level.value}_{self.year}_tijdvak_{self.tijdvak}.pdf"`. -/
def Exam.str (e : Exam) : String :=
  "exam_" ++ e.level.value ++ "_" ++ toString e.year ++ "_tijdvak_"
    ++ toString e.tijdvak ++ ".pdf"

/-- The spec's `Exam` invariant as a standalone predicate: the first
dash-separated field of the stem, lowercased, is a known level acronym, and
the fourth and fifth fields parse as the year (`%y`) and the tijdvak
(`int`). -/
def validExamFileName (fileName : String) : Bool :=
  let parts := pySplitDash (pathStem fileName)
  (pdf_acronym_to_level_mapping.lookup (pyLower (parts.headD ""))).isSome
    && (match parts[3]? with
        | some p3 => (strptime_y p3).isSome
        | none => false)
    && (match parts[4]? with
        | some p4 => (pyIntParse p4).isSome
        | none => false)

/-! ## Vector-store search-result selection (`services/vectorstore/main.py`)

`vectorstore_fetch` first searches the vector store (a remote call, abstracted
here as the already-returned `results` list), raises
`ValueError("No results found.")` on an empty result list, and otherwise
selects `results[0] if best else random.choice(results)`.  CPython's
`random.choice(seq)` is `seq[self._randbelow(len(seq))]` with `_randbelow`
uniform on `[0, len(seq))`; the draw is modelled by an arbitrary natural
number reduced mod the length.  The subsequent steps (attribute checks,
loading the formatted question, composing the response) operate on the
selected hit and are outside this claim.
-/

/-- The search-and-select stage of
`services/vectorstore/main.py:vectorstore_fetch`. -/
def vectorstore_fetch_select {α : Type} (results : List α) (best : Bool)
    (draw : Nat) : Except String α :=
  match results with
  | [] => .error "No results found."
  | r :: rs =>
    .ok (if best then r
         else (r :: rs).get ⟨draw % (r :: rs).length, Nat.mod_lt _ (by simp)⟩)

/-! ## Per-question processing loop (`services/image_to_question/main.py`) -/

/-- The Python exception classes relevant to `process_exam_dir`: `ValueError`
(including its subclass, pydantic's `ValidationError`) is caught per question;
any other exception propagates. -/
inductive PyError where
  | valueError (msg : String)
  | otherError (msg : String)
  deriving DecidableEq, Repr

/-- `services/image_to_question/main.py:process_exam_dir`, the per-question
loop: for each question directory the body calls `process_question` (which
parses the directory, calls the remote transcription agent and builds a
`QuestionRecord`; abstracted here into the `process_question` oracle) and
writes the record as one JSONL line.  `except ValueError` logs a warning and
continues with the next directory; any other exception propagates and aborts
the loop.  The written JSONL lines are modelled as the returned record list,
in write order. -/
def process_exam_dir {QuestionDir Record : Type}
    (question_dirs : List QuestionDir)
    (process_question : QuestionDir → Except PyError Record) :
    Except PyError (List Record) :=
  match question_dirs with
  | [] => .ok []
  | d :: ds =>
    match process_question d with
    | .ok record =>
      (process_exam_dir ds process_question).map (fun recs => record :: recs)
    | .error (.valueError _) => process_exam_dir ds process_question
    | .error e => .error e

/-! ## Image endpoint path containment (`web/app/api/v1.py`, `paths.py`)

Paths are modelled as lists of components of an absolute POSIX path (the
root is `[]`).  `Path.resolve()` is modelled as lexical normalization of
`".."` (the deployment serves a plain directory tree; symbolic links are not
modelled).  The filesystem is an oracle mapping a path to what exists there.
-/

/-- What the filesystem holds at a path (`exists()` / `is_file()`). -/
inductive FileKind where
  | absent
  | file
  | dir
  deriving DecidableEq, Repr

/-- An absolute path as its list of components. -/
abbrev PathSegs := List String

/-- `pathlib` parsing of a path string into components: split on `"/"`,
dropping empty components and `"."` (pathlib normalizes both away on
construction). -/
def pySegsOf (s : String) : List String :=
  ((splitOnChar '/' s.toList).map String.mk).filter
    (fun seg => seg ≠ "" && seg ≠ ".")

/-- Whether a path string is absolute (`"/"`-anchored). -/
def pyIsAbs (s : String) : Bool :=
  match s.toList with
  | c :: _ => c = '/'
  | [] => false

/-- `pathlib`'s `/` operator: joining an absolute path string replaces the
base entirely; otherwise the components are appended. -/
def pyJoin (base : PathSegs) (s : String) : PathSegs :=
  if pyIsAbs s then pySegsOf s else base ++ pySegsOf s

/-- `paths.py:exam_asset_under_root`: `exams_root / exam_id / rel_path`. -/
def exam_asset_under_root (exams_root : PathSegs) (exam_id rel_path : String) :
    PathSegs :=
  pyJoin (pyJoin exams_root exam_id) rel_path

/-- `Path.resolve()` on an absolute path (no symlinks): normalize `".."`
lexically; at the filesystem root `".."` stays at the root, as in POSIX. -/
def resolveSegs (segs : PathSegs) : PathSegs :=
  segs.foldl (fun acc seg => if seg = ".." then acc.dropLast else acc ++ [seg]) []

/-- `Path.relative_to(root)` succeeds exactly when `root`'s components are a
prefix of the path's components (`try ... except` in the endpoint turns the
failure into a 404). -/
def relativeToOk (root p : PathSegs) : Bool := root.isPrefixOf p

/-- `web/app/api/v1.py`: the `GET /api/v1/image/{exam_id}/{rel_path:path}`
endpoint.  The candidate is `exam_asset_under_root(exams_root, exam_id,
rel_path).resolve()`; a failing `relative_to(exams_root)` or a candidate that
is not an existing regular file yields `HTTPException(404)`, otherwise the
candidate file is served (`FileResponse`). -/
def image (exams_root : PathSegs) (fs : PathSegs → FileKind)
    (exam_id rel_path : String) : Except Nat PathSegs :=
  let candidate := resolveSegs (exam_asset_under_root exams_root exam_id rel_path)
  if relativeToOk exams_root candidate then
    if fs candidate = .file then .ok candidate else .error 404
  else .error 404

/-! ## Exam folder structure (`pydantic_models.py`)

An exam directory is modelled as its listing: the subdirectory names together
with the file names inside each subdirectory's `pages/` and `figures/`
directories.  Plain files in the exam directory itself are ignored by the
code (`p.is_dir()`), so they are not modelled.
-/

/-- One subdirectory of an exam directory with the file names found in its
`pages/` and `figures/` subdirectories. -/
structure SubdirModel where
  name : String
  pagesFiles : List String
  figuresFiles : List String
  deriving DecidableEq, Repr

/-- An exam directory: its name and its (direct) subdirectories. -/
structure ExamDirModel where
  name : String
  subdirs : List SubdirModel
  deriving DecidableEq, Repr

/-- `re.fullmatch(r"q\d+", name.lower())`: a `q` followed by one or more
digits (the regex `\d` also covers non-ASCII Unicode digits, which directory
names never contain here). -/
def isQuestionDirName (s : String) : Bool :=
  match (pyLower s).toList with
  | c :: rest => c = 'q' && !rest.isEmpty && rest.all Char.isDigit
  | [] => false

/-- Whether `glob("*.png")` matches a file name: ends in `".png"` and is not
a hidden file (glob patterns not starting with a dot never match names
starting with a dot). -/
def globMatchesPng (f : String) : Bool :=
  (['.', 'p', 'n', 'g'].isSuffixOf f.toList)
    && (match f.toList with
        | c :: _ => c ≠ '.'
        | [] => false)

/-- `constants.py:IGNORED_FILES`. -/
def IGNORED_FILES : List String :=
  [".DS_Store", ".gitkeep", "Thumbs.db", "desktop.ini"]

/-- `utils/file_utils.py:get_files(dir, pattern="*", with_ignore=True)`:
`glob("*")` (which skips hidden files) followed by the `IGNORED_FILES`
filter. -/
def get_files (files : List String) : List String :=
  (files.filter
      (fun f =>
        match f.toList with
        | c :: _ => c ≠ '.'
        | [] => false)).filter
    (fun f => !IGNORED_FILES.contains f)

/-- `pathlib.PurePath.suffix` of a file name (`""` when there is none). -/
def pySuffix (name : String) : String :=
  match lastIdxOf '.' name.toList with
  | some i =>
    if 0 < i ∧ i < name.toList.length - 1 then String.mk (name.toList.drop i) else ""
  | none => ""

/-- A file that `validate_only_png_images` flags: `f.suffix.lower() != ".png"`
after the `get_files` filtering. -/
def isNonPngName (f : String) : Bool := pyLower (pySuffix f) ≠ ".png"

/-- `pydantic_models.py:QuestionFolderStructure` (paths are modelled by the
file names inside the question directory). -/
structure QuestionFolderStructure where
  number : String
  pages : List String
  figures : List String
  deriving DecidableEq, Repr

/-- `QuestionFolderStructure.from_question_dir` followed by the model's
after-validators in declaration order: `number = question_dir.name`,
`pages = glob("pages/*.png")`, `figures = glob("figures/*.png")`;
`validate_pages_directory` requires a non-empty `pages` list, and
`validate_only_png_images` re-lists the pages directory (and, when `figures`
is non-empty, the figures directory) through `get_files` and rejects any file
whose lowercased suffix is not `".png"`. -/
def QuestionFolderStructure.from_question_dir (q : SubdirModel) :
    Except String QuestionFolderStructure :=
  let pages := q.pagesFiles.filter globMatchesPng
  let figures := q.figuresFiles.filter globMatchesPng
  if pages.isEmpty then
    .error ("No pages directory found in " ++ q.name)
  else if !((get_files q.pagesFiles).filter isNonPngName).isEmpty then
    .error "Non-PNG files found in pages directory"
  else if !figures.isEmpty
      && !((get_files q.figuresFiles).filter isNonPngName).isEmpty then
    .error "Non-PNG files found in figures directory"
  else
    .ok { number := q.name, pages := pages, figures := figures }

/-- `pydantic_models.py:ExamFolderStructure` (the `root` path is kept only on
the Python side for re-listing the directory; the validators receive the
listing directly here). -/
structure ExamFolderStructure where
  name : String
  questions : List QuestionFolderStructure
  deriving DecidableEq, Repr

/-- The pydantic construction of an `ExamFolderStructure`: the after-validators
in declaration order.  `validate_no_extra_directories` lists the directories
of the exam folder (`rootDirNames`) and rejects any whose name is not among
the question numbers; `validate_no_duplicate_questions` rejects any question
number occurring more than once. -/
def ExamFolderStructure.validate (name : String) (rootDirNames : List String)
    (questions : List QuestionFolderStructure) : Except String ExamFolderStructure :=
  let question_dirs := questions.map (fun q => q.number)
  let extra_dirs := rootDirNames.filter (fun d => !question_dirs.contains d)
  if !extra_dirs.isEmpty then
    .error ("Unexpected directories found in exam folder " ++ name)
  else
    let question_numbers := questions.map (fun q => q.number)
    let duplicates := question_numbers.filter (fun num => question_numbers.count num > 1)
    if !duplicates.isEmpty then
      .error ("Duplicate question numbers found in exam " ++ name)
    else
      .ok { name := name, questions := questions }

/-- `ExamFolderStructure.from_exam_dir`: select the subdirectories whose
(lowercased) name matches `q\d+`, sorted by name, build a
`QuestionFolderStructure` for each (the first per-question validation error
propagates), then run the exam-level validators. -/
def ExamFolderStructure.from_exam_dir (d : ExamDirModel) :
    Except String ExamFolderStructure :=
  let qdirs := (d.subdirs.filter (fun s => isQuestionDirName s.name)).mergeSort
    (fun a b => decide (a.name ≤ b.name))
  match qdirs.mapM QuestionFolderStructure.from_question_dir with
  | .error e => .error e
  | .ok qs => ExamFolderStructure.validate d.name (d.subdirs.map (fun s => s.name)) qs

/-! ## JSON-encoded attribute lists (`pydantic_models.py`)

`QuestionRecord.attributes_for_vector_store` stores `page_images`,
`figure_images` and `source_images` as
`json.dumps(value or [], ensure_ascii=False)`;
`QuestionRecordVectorStoreAttributes.get_page_images` /
`get_figure_images` / `get_source_images` parse them back with `json.loads`.
CPython's encoder on a list of strings emits
`"[" + ", ".join('"' + esc(s) + '"' for s in lst) + "]"`, where `esc` escapes
`"` and `\`, uses the short escapes `\b \t \n \f \r`, writes the remaining
control characters as `\u00xx` (lowercase hex) and, with
`ensure_ascii=False`, emits every other character verbatim.  `json.loads` is
embedded on its value domain here — arrays of strings — with strict-mode
rejection of raw control characters inside strings and all of the escapes the
encoder can produce (the stdlib decoder also accepts other JSON values and
surrogate-pair escapes, which these attributes never contain).
-/

/-- Lowercase hexadecimal digit, as CPython's `json` writes `\uXXXX`. -/
def hexDigitChar (n : Nat) : Char :=
  if n < 10 then Char.ofNat (48 + n) else Char.ofNat (87 + n)

/-- CPython `json` escaping of one character inside a string
(`ensure_ascii=False`). -/
def encodeJsonChar (c : Char) : List Char :=
  if c = '"' then ['\\', '"']
  else if c = '\\' then ['\\', '\\']
  else if c = '\n' then ['\\', 'n']
  else if c = '\t' then ['\\', 't']
  else if c = '\r' then ['\\', 'r']
  else if c = '\x08' then ['\\', 'b']
  else if c = '\x0c' then ['\\', 'f']
  else if c.toNat < 32 then
    ['\\', 'u', '0', '0', hexDigitChar (c.toNat / 16), hexDigitChar (c.toNat % 16)]
  else [c]

/-- The escaped body of a JSON string literal. -/
def encodeJsonStringChars (s : String) : List Char :=
  (s.toList.map encodeJsonChar).flatten

/-- A quoted JSON string literal. -/
def quoteEnc (s : String) : List Char :=
  '"' :: (encodeJsonStringChars s ++ ['"'])

/-- `", ".join(...)` — the default item separator of `json.dumps`. -/
def joinCommaSpace : List (List Char) → List Char
  | [] => []
  | [x] => x
  | x :: xs => x ++ ',' :: ' ' :: joinCommaSpace xs

/-- `json.dumps` of a list of strings (`ensure_ascii=False`). -/
def json_dumps_str_list (l : List String) : String :=
  String.mk ('[' :: (joinCommaSpace (l.map quoteEnc) ++ [']']))

/-- One hexadecimal digit of a `\uXXXX` escape. -/
def parseHexDigit (c : Char) : Option Nat :=
  if '0' ≤ c ∧ c ≤ '9' then some (c.toNat - 48)
  else if 'a' ≤ c ∧ c ≤ 'f' then some (c.toNat - 87)
  else if 'A' ≤ c ∧ c ≤ 'F' then some (c.toNat - 55)
  else none

/-- Decode a `\uXXXX` escape (a lone surrogate escape is rejected: Lean's
`Char` cannot hold it, and the encoder never emits one on this domain). -/
def parseU (h1 h2 h3 h4 : Char) : Option Char :=
  match parseHexDigit h1, parseHexDigit h2, parseHexDigit h3, parseHexDigit h4 with
  | some a, some b, some c, some d =>
    let n := ((a * 16 + b) * 16 + c) * 16 + d
    if n.isValidChar then some (Char.ofNat n) else none
  | _, _, _, _ => none

/-- A single-character escape (`json.decoder.BACKSLASH` table). -/
def unescapeChar (e : Char) : Option Char :=
  if e = '"' then some '"'
  else if e = '\\' then some '\\'
  else if e = '/' then some '/'
  else if e = 'b' then some '\x08'
  else if e = 'f' then some '\x0c'
  else if e = 'n' then some '\n'
  else if e = 'r' then some '\r'
  else if e = 't' then some '\t'
  else none

/-- Parse the body of a JSON string literal after its opening quote,
returning the decoded characters and the input following the closing quote.
Strict mode: a raw control character inside a string is rejected. -/
def parseJsonStringBody : List Char → Option (List Char × List Char)
  | [] => none
  | c :: rest =>
    if c = '"' then some ([], rest)
    else if c = '\\' then
      match rest with
      | 'u' :: h1 :: h2 :: h3 :: h4 :: rest3 =>
        match parseU h1 h2 h3 h4 with
        | some u => (parseJsonStringBody rest3).map (fun sr => (u :: sr.1, sr.2))
        | none => none
      | e :: rest2 =>
        match unescapeChar e with
        | some u => (parseJsonStringBody rest2).map (fun sr => (u :: sr.1, sr.2))
        | none => none
      | [] => none
    else if c.toNat < 32 then none
    else (parseJsonStringBody rest).map (fun sr => (c :: sr.1, sr.2))

/-- JSON whitespace skipping between tokens. -/
def skipJsonWs (cs : List Char) : List Char :=
  cs.dropWhile (fun c => c = ' ' || c = '\t' || c = '\n' || c = '\r')

/-- Parse the comma-separated string elements of a JSON array, after the
opening bracket, up to and including the closing bracket.  The fuel bounds
the number of elements (`json.loads` recursion is bounded by the input
length). -/
def parseJsonStringItems : Nat → List Char → Option (List (List Char) × List Char)
  | 0, _ => none
  | fuel + 1, cs =>
    match skipJsonWs cs with
    | '"' :: rest =>
      match parseJsonStringBody rest with
      | none => none
      | some (s, rest2) =>
        match skipJsonWs rest2 with
        | ',' :: rest3 =>
          (match parseJsonStringItems fuel rest3 with
           | some (ss, r) => some (s :: ss, r)
           | none => none)
        | ']' :: rest3 => some ([s], rest3)
        | _ => none
    | _ => none

/-- `json.loads` restricted to arrays of strings: the whole input must be a
single `[...]` array of string literals (with arbitrary surrounding
whitespace); anything else raises (`none`). -/
def json_loads_str_list (s : String) : Option (List String) :=
  match skipJsonWs s.toList with
  | c :: rest =>
    if c = '[' then
      match skipJsonWs rest with
      | c2 :: rest2 =>
        if c2 = ']' then (if (skipJsonWs rest2).isEmpty then some [] else none)
        else
          match parseJsonStringItems (s.toList.length + 1) rest with
          | some (items, r2) =>
            if (skipJsonWs r2).isEmpty then some (items.map String.mk) else none
          | none => none
      | [] => none
    else none
  | [] => none

/-! ## Question records and vector-store attributes (`pydantic_models.py`) -/

/-- `pydantic_models.py:FigureInfo`. -/
structure FigureInfo where
  present : Bool
  missing : Bool
  description : Option String
  deriving DecidableEq, Repr

/-- `pydantic_models.py:QuestionRecord` (a normalized question-sized record). -/
structure QuestionRecord where
  id : String
  exam : Exam
  title : String
  question_number : String
  question_text : String
  figure : FigureInfo
  source_images : List String
  page_images : Option (List String)
  figure_images : Option (List String)
  deriving DecidableEq, Repr

/-- Python `str(bool(b))`. -/
def pyStrBool (b : Bool) : String := if b then "True" else "False"

/-- `pydantic_models.py:QuestionRecordVectorStoreAttributes`: the metadata
fields stored alongside each question in the vector store — all strings, the
three image lists as JSON strings. -/
structure QuestionRecordVectorStoreAttributes where
  record_id : String
  exam_id : String
  exam_level : String
  exam_year : String
  exam_tijdvak : String
  question_number : String
  page_images : String
  figure_images : String
  source_images : String
  figure_present : String
  figure_missing : String
  deriving DecidableEq, Repr

/-- `QuestionRecord.attributes_for_vector_store`.  Python's `value or []`
yields the list itself when it is non-empty and `[]` both for `None` and for
an empty list — the same value as `Option.getD []` (and the identity on the
non-optional `source_images`). -/
def QuestionRecord.attributes_for_vector_store (r : QuestionRecord) :
    QuestionRecordVectorStoreAttributes where
  record_id := r.id
  exam_id := r.exam.id
  exam_level := r.exam.level.value
  exam_year := toString r.exam.year
  exam_tijdvak := toString r.exam.tijdvak
  question_number := r.question_number
  page_images := json_dumps_str_list (r.page_images.getD [])
  figure_images := json_dumps_str_list (r.figure_images.getD [])
  source_images := json_dumps_str_list r.source_images
  figure_present := pyStrBool r.figure.present
  figure_missing := pyStrBool r.figure.missing

/-- `QuestionRecordVectorStoreAttributes.get_page_images`:
`json.loads(self.page_images)` (raising, i.e. `none`, on invalid JSON). -/
def QuestionRecordVectorStoreAttributes.get_page_images
    (a : QuestionRecordVectorStoreAttributes) : Option (List String) :=
  json_loads_str_list a.page_images

/-- `QuestionRecordVectorStoreAttributes.get_figure_images`. -/
def QuestionRecordVectorStoreAttributes.get_figure_images
    (a : QuestionRecordVectorStoreAttributes) : Option (List String) :=
  json_loads_str_list a.figure_images

/-- `QuestionRecordVectorStoreAttributes.get_source_images`. -/
def QuestionRecordVectorStoreAttributes.get_source_images
    (a : QuestionRecordVectorStoreAttributes) : Option (List String) :=
  json_loads_str_list a.source_images

/-! ## Theorems: agent pipeline (C1, C2) and part labels (C10) -/

/-- C1.  `filter_conversation_history` returns exactly the subsequence of the
conversation history made of the events whose runtime type is in the agent's
allowed-event list (`agent_name_to_event_mapping`): the result is a sublist of
the input (relative order preserved), and each event occurs in the result with
its full multiplicity when its type is allowed and not at all when it is
disallowed — no allowed event is dropped, no disallowed event is kept. -/
theorem filter_conversation_history_exact
    (conversation_history : ConversationHistory) (agentName : AgentName) :
    (filter_conversation_history conversation_history agentName).Sublist
      conversation_history ∧
    ∀ e : ConversationEvent,
      (filter_conversation_history conversation_history agentName).count e =
        if e.ty ∈ agent_name_to_event_mapping agentName
        then conversation_history.count e else 0 := by
  refine ⟨List.filter_sublist _, ?_⟩
  intro e
  by_cases he : e.ty ∈ agent_name_to_event_mapping agentName
  · rw [if_pos he]
    exact List.count_filter (by simpa using he)
  · rw [if_neg he]
    rw [List.count_eq_zero]
    intro hmem
    have := List.of_mem_filter hmem
    simp at this
    exact he this

/-- C2.  `run_agent_pipeline` never alters the (immutable) input history in
place: with an `event_factory` the returned history is the original,
unfiltered input history with exactly the factory-wrapped agent output
appended at the end, and without an `event_factory` the returned history is
the input history itself. -/
theorem run_agent_pipeline_appends {InputItem Output : Type}
    (agentName : AgentName) (conversation_history : ConversationHistory)
    (f : Output → ConversationEvent)
    (input_builder : ConversationHistory → List InputItem)
    (runAgent : List InputItem → Output) :
    (run_agent_pipeline agentName conversation_history (some f) input_builder
        runAgent).2
      = conversation_history ++
          [f (run_agent_pipeline agentName conversation_history (some f)
                input_builder runAgent).1] ∧
    (run_agent_pipeline agentName conversation_history none input_builder
        runAgent).2
      = conversation_history :=
  ⟨rfl, rfl⟩

/-- C10.  After the `auto_generate_part_labels` validator runs, the part list
keeps its length and every part has a `some` label: at each index `i`, a part
whose label arrived as `none` carries `chr(ord('a') + i)` and a part with an
explicit label keeps it unchanged. -/
theorem auto_generate_part_labels_spec (parts : List MultipartQuestionPart)
    (i : Nat) (hi : i < parts.length) :
    (auto_generate_part_labels parts).length = parts.length ∧
    (auto_generate_part_labels parts).get
        ⟨i, by simpa [auto_generate_part_labels] using hi⟩
      = (if (parts.get ⟨i, hi⟩).label = none
          then { parts.get ⟨i, hi⟩ with label := some (partLabelFor i) }
          else parts.get ⟨i, hi⟩) ∧
    ((auto_generate_part_labels parts).get
        ⟨i, by simpa [auto_generate_part_labels] using hi⟩).label
      = some (((parts.get ⟨i, hi⟩).label).getD (partLabelFor i)) := by
  refine ⟨by simp [auto_generate_part_labels], ?_, ?_⟩
  · simp [auto_generate_part_labels, List.get_eq_getElem]
  · simp only [auto_generate_part_labels, List.get_eq_getElem, List.getElem_mapIdx]
    cases h : parts[i].label with
    | none => simp [h]
    | some l => simp [h]

/-- Witness for C10 at a concrete part list: a two-part list whose first part
has no label and whose second has the explicit label "Q"; index 0 gets label
"a" and index 1 keeps "Q". -/
theorem auto_generate_part_labels_spec_witness :
    (0 : Nat) < ([⟨"first", none, 2⟩, ⟨"second", some "Q", 1⟩] :
        List MultipartQuestionPart).length ∧
    (auto_generate_part_labels
        [⟨"first", none, 2⟩, ⟨"second", some "Q", 1⟩]).length = 2 ∧
    ((auto_generate_part_labels
        [⟨"first", none, 2⟩, ⟨"second", some "Q", 1⟩]).get ⟨0, by decide⟩).label
      = some "a" :=
  ⟨by decide,
    (auto_generate_part_labels_spec
      [⟨"first", none, 2⟩, ⟨"second", some "Q", 1⟩] 0 (by decide)).1,
    by
      have h := (auto_generate_part_labels_spec
        [⟨"first", none, 2⟩, ⟨"second", some "Q", 1⟩] 0 (by decide)).2.2
      simpa [partLabelFor] using h⟩

/-! ### Helper lemmas about stems and parsing -/

theorem string_mk_toList (s : String) : String.mk s.toList = s := by
  cases s
  rfl

theorem lastIdxOf_eq_none {c : Char} {l : List Char} (h : c ∉ l) :
    lastIdxOf c l = none := by
  induction l with
  | nil => rfl
  | cons a as ih =>
    have h1 : c ≠ a := fun hc => h (by simp [hc])
    have h2 : c ∉ as := fun hc => h (by simp [hc])
    simp [lastIdxOf, ih h2, Ne.symm h1]

theorem lastIdxOf_append {c : Char} {l r : List Char} (h : c ∉ r) :
    lastIdxOf c (l ++ c :: r) = some l.length := by
  induction l with
  | nil => simp [lastIdxOf, lastIdxOf_eq_none h]
  | cons a as ih => simp [lastIdxOf, ih]

theorem string_ne_empty_toList {s : String} (hs : s ≠ "") : s.toList ≠ [] := by
  intro hnil
  apply hs
  have := congrArg String.mk hnil
  rwa [string_mk_toList] at this

theorem pathStem_append_pdf {s : String} (hs : s ≠ "") :
    pathStem (s ++ ".pdf") = s := by
  have hdata : (s ++ ".pdf").toList = s.toList ++ '.' :: ['p', 'd', 'f'] := by
    simp [String.toList, String.data_append]
  have hlen : 0 < s.toList.length :=
    List.length_pos.mpr (string_ne_empty_toList hs)
  have hcond : 0 < s.toList.length ∧
      s.toList.length < (s.toList ++ '.' :: ['p', 'd', 'f']).length - 1 := by
    constructor
    · exact hlen
    · simp
  have hred : pathStem (s ++ ".pdf")
      = if 0 < s.toList.length ∧
            s.toList.length < (s.toList ++ '.' :: ['p', 'd', 'f']).length - 1
        then String.mk ((s.toList ++ '.' :: ['p', 'd', 'f']).take s.toList.length)
        else s ++ ".pdf" := by
    unfold pathStem
    rw [hdata, lastIdxOf_append (by decide)]
  rw [hred, if_pos hcond, List.take_left]
  exact string_mk_toList s

theorem from_stem_ok_id {s : String} {e : Exam}
    (h : Exam.from_stem s = .ok e) : e.id = s := by
  simp only [Exam.from_stem] at h
  iterate 5 (all_goals try split at h)
  all_goals try exact Except.noConfusion h
  all_goals (injection h with h2; subst h2; rfl)

theorem from_stem_ok_ne_empty {s : String} {e : Exam}
    (h : Exam.from_stem s = .ok e) : s ≠ "" := by
  intro hs
  subst hs
  have hempty : Exam.from_stem "" = .error "KeyError: unknown level acronym" := rfl
  rw [hempty] at h
  exact Except.noConfusion h

/-! ### Theorems: Exam filename parsing (C8, C3) -/

/-- C8.  `Exam.from_file_path` produces an `Exam` exactly when the stem's
first dash-separated field, lowercased, is a known level acronym and the
fourth and fifth fields parse as year (`%y`) and tijdvak (`int`); on every
file name violating this invariant it raises (returns an error) and no `Exam`
value is produced. -/
theorem from_file_path_ok_iff (fileName : String) :
    ((Exam.from_file_path fileName).isOk = validExamFileName fileName) ∧
    (validExamFileName fileName = false →
      ∃ msg, Exam.from_file_path fileName = .error msg) := by
  have h1 : (Exam.from_file_path fileName).isOk = validExamFileName fileName := by
    simp only [Exam.from_file_path, Exam.from_stem, validExamFileName]
    cases h0 : pdf_acronym_to_level_mapping.lookup
        (pyLower ((pySplitDash (pathStem fileName)).headD "")) with
    | none => simp [h0, Except.isOk, Except.toBool]
    | some level =>
      cases h3 : (pySplitDash (pathStem fileName))[3]? with
      | none => simp [h0, h3, Except.isOk, Except.toBool]
      | some p3 =>
        cases hy : strptime_y p3 with
        | none => simp [h0, h3, hy, Except.isOk, Except.toBool]
        | some y =>
          cases h4 : (pySplitDash (pathStem fileName))[4]? with
          | none => simp [h0, h3, hy, h4, Except.isOk, Except.toBool]
          | some p4 =>
            cases ht : pyIntParse p4 with
            | none => simp [h0, h3, hy, h4, ht, Except.isOk, Except.toBool]
            | some t => simp [h0, h3, hy, h4, ht, Except.isOk, Except.toBool]
  refine ⟨h1, fun hv => ?_⟩
  rw [hv] at h1
  cases hfp : Exam.from_file_path fileName with
  | ok e => rw [hfp] at h1; simp [Except.isOk, Except.toBool] at h1
  | error msg => exact ⟨msg, rfl⟩

/-- Witness for C8 at a concrete invalid file name: `"bogus.pdf"` has no
dash-separated acronym field, violates the invariant, and parsing returns an
error. -/
theorem from_file_path_ok_iff_witness :
    validExamFileName "bogus.pdf" = false ∧
    ∃ msg, Exam.from_file_path "bogus.pdf" = .error msg :=
  ⟨rfl, (from_file_path_ok_iff "bogus.pdf").2 rfl⟩

/-- C3 counterexample.  The claimed `str()`-based round-trip fails on the
code: parsing the valid exam filename `"VW-1025-a-18-1-o.pdf"` succeeds, its
`str()` serialization is the underscore-separated
`"exam_VWO_2018_tijdvak_1.pdf"`, and `Exam.from_file_path` on that filename
raises (the stem has no dash-separated fields, so the acronym lookup fails)
instead of recovering level/year/tijdvak. -/
theorem exam_str_roundtrip_counterexample :
    Exam.from_file_path "VW-1025-a-18-1-o.pdf"
      = .ok { id := "VW-1025-a-18-1-o", year := 2018, tijdvak := 1, level := .VWO } ∧
    Exam.str { id := "VW-1025-a-18-1-o", year := 2018, tijdvak := 1, level := .VWO }
      = "exam_VWO_2018_tijdvak_1.pdf" ∧
    (Exam.from_file_path
        (Exam.str { id := "VW-1025-a-18-1-o", year := 2018, tijdvak := 1, level := .VWO })).isOk
      = false :=
  ⟨rfl, rfl, rfl⟩

/-- C3 amended.  Filename parsing round-trips level/year/tijdvak through the
`Exam`'s `id` field (which retains the original filename stem), not through
`str()`: whenever `Exam.from_file_path` succeeds, re-parsing the filename
rebuilt from the id (`f"{e.id}.pdf"`, as `ExamFolderStructure.exam` and
`_exam_from_exam_dir` do) yields the same `Exam` — same level, year and
tijdvak. -/
theorem from_file_path_id_roundtrip (fileName : String) (e : Exam)
    (h : Exam.from_file_path fileName = .ok e) :
    Exam.from_file_path (e.id ++ ".pdf") = .ok e := by
  have hid : e.id = pathStem fileName := from_stem_ok_id h
  have hne : pathStem fileName ≠ "" := from_stem_ok_ne_empty h
  rw [Exam.from_file_path, hid, pathStem_append_pdf hne]
  exact h

/-- Witness for the amended C3 at the concrete filename
`"VW-1025-a-18-1-o.pdf"`: the parsed exam's id rebuilds a filename that parses
back to the identical exam. -/
theorem from_file_path_id_roundtrip_witness :
    Exam.from_file_path "VW-1025-a-18-1-o.pdf"
      = .ok { id := "VW-1025-a-18-1-o", year := 2018, tijdvak := 1, level := .VWO } ∧
    Exam.from_file_path
        (({ id := "VW-1025-a-18-1-o", year := 2018, tijdvak := 1,
            level := .VWO } : Exam).id ++ ".pdf")
      = .ok { id := "VW-1025-a-18-1-o", year := 2018, tijdvak := 1, level := .VWO } :=
  ⟨rfl, from_file_path_id_roundtrip "VW-1025-a-18-1-o.pdf" _ rfl⟩

/-! ## Theorems: vector-store selection (C7) and skip-and-log (C6) -/

/-- C7.  On a non-empty search-result list, `best = true` selects exactly the
first hit (`results[0]`); with `best = false` the selection is uniform over
the returned hits — as the random draw ranges over `[0, len(results))`, the
selections enumerate exactly the hits, each with its multiplicity; and on an
empty result list both modes raise `ValueError("No results found.")` instead
of selecting anything. -/
theorem vectorstore_fetch_select_spec {α : Type} (results : List α) (draw : Nat)
    (r : α) (rs : List α) (h : results = r :: rs) :
    vectorstore_fetch_select results true draw = .ok r ∧
    (List.range results.length).map
        (fun j => vectorstore_fetch_select results false j)
      = results.map Except.ok ∧
    vectorstore_fetch_select ([] : List α) true draw
      = .error "No results found." ∧
    vectorstore_fetch_select ([] : List α) false draw
      = .error "No results found." := by
  subst h
  refine ⟨rfl, ?_, rfl, rfl⟩
  apply List.ext_get
  · simp
  · intro i h1 h2
    have hi : i < (r :: rs).length := by simpa using h2
    have hsel : vectorstore_fetch_select (r :: rs) false i
        = .ok ((r :: rs).get ⟨i % (r :: rs).length, Nat.mod_lt _ (by simp)⟩) := rfl
    rw [List.get_eq_getElem, List.get_eq_getElem, List.getElem_map,
      List.getElem_map, List.getElem_range, hsel]
    have hi2 : i < rs.length + 1 := by simpa using hi
    simp [List.get_eq_getElem, Nat.mod_eq_of_lt hi2]

/-- Witness for C7 at a concrete two-hit result list: `best` picks the first
hit, and the two possible random draws enumerate both hits. -/
theorem vectorstore_fetch_select_spec_witness :
    vectorstore_fetch_select ["hit1", "hit2"] true 1 = .ok "hit1" ∧
    (List.range 2).map
        (fun j => vectorstore_fetch_select ["hit1", "hit2"] false j)
      = [Except.ok "hit1", Except.ok "hit2"] := by
  have h := vectorstore_fetch_select_spec ["hit1", "hit2"] 1 "hit1" ["hit2"] rfl
  exact ⟨h.1, by simpa using h.2.1⟩

/-- C6.  Whenever every failing question directory fails with a `ValueError`
(the per-question validation error), `process_exam_dir` completes the whole
batch: each `ValueError` is caught and that question skipped, every remaining
directory is still processed, and the records of exactly the non-failing
questions are written, in order. -/
theorem process_exam_dir_skips_value_errors {QuestionDir Record : Type}
    (question_dirs : List QuestionDir)
    (process_question : QuestionDir → Except PyError Record)
    (h : ∀ d ∈ question_dirs,
        (∃ record, process_question d = .ok record) ∨
        (∃ msg, process_question d = .error (.valueError msg))) :
    process_exam_dir question_dirs process_question
      = .ok (question_dirs.filterMap
          (fun d => match process_question d with
            | .ok record => some record
            | .error _ => none)) := by
  induction question_dirs with
  | nil => rfl
  | cons d ds ih =>
    have hds := fun x hx => h x (List.mem_cons_of_mem d hx)
    rcases h d (List.mem_cons_self d ds) with ⟨record, hr⟩ | ⟨msg, hm⟩
    · simp [process_exam_dir, hr, List.filterMap_cons, ih hds, Except.map]
    · simp [process_exam_dir, hm, List.filterMap_cons, ih hds]

/-- Witness for C6 at a concrete batch: of three question directories the
second raises a `ValueError` and is skipped; the records of the first and
third are still produced, in order. -/
theorem process_exam_dir_skips_value_errors_witness :
    process_exam_dir [1, 2, 3]
        (fun d => if d = 2
          then (.error (.valueError "bad question dir") : Except PyError String)
          else .ok (toString d))
      = .ok ["1", "3"] := by
  have h := process_exam_dir_skips_value_errors [1, 2, 3]
      (fun d => if d = 2
        then (.error (.valueError "bad question dir") : Except PyError String)
        else .ok (toString d))
      (by
        intro d hd
        fin_cases hd
        · exact Or.inl ⟨_, rfl⟩
        · exact Or.inr ⟨_, rfl⟩
        · exact Or.inl ⟨_, rfl⟩)
  rw [h]
  rfl

/-! ### Theorems: image endpoint path containment (C9) -/

/-- C9.  The image endpoint serves a file only when the fully resolved
candidate `<exams_root>/<exam_id>/<rel_path>` still lies under the configured
`exams_root` (its components are an extension of the root's) and is an
existing regular file; any request whose resolved candidate escapes the root
(e.g. via `..` segments), or that names a missing or non-regular path, yields
a 404 and serves nothing. -/
theorem image_serves_only_under_root (exams_root : PathSegs)
    (fs : PathSegs → FileKind) (exam_id rel_path : String) :
    (∀ p, image exams_root fs exam_id rel_path = .ok p →
        exams_root.isPrefixOf p = true ∧ fs p = .file ∧
        p = resolveSegs (exam_asset_under_root exams_root exam_id rel_path)) ∧
    (exams_root.isPrefixOf
        (resolveSegs (exam_asset_under_root exams_root exam_id rel_path)) = false →
      image exams_root fs exam_id rel_path = .error 404) ∧
    (fs (resolveSegs (exam_asset_under_root exams_root exam_id rel_path)) ≠ .file →
      image exams_root fs exam_id rel_path = .error 404) := by
  have himg : image exams_root fs exam_id rel_path
      = if relativeToOk exams_root
            (resolveSegs (exam_asset_under_root exams_root exam_id rel_path)) = true then
          if fs (resolveSegs (exam_asset_under_root exams_root exam_id rel_path)) = .file
          then .ok (resolveSegs (exam_asset_under_root exams_root exam_id rel_path))
          else .error 404
        else .error 404 := rfl
  refine ⟨?_, ?_, ?_⟩
  · intro p hp
    rw [himg] at hp
    by_cases h1 : relativeToOk exams_root
        (resolveSegs (exam_asset_under_root exams_root exam_id rel_path)) = true
    · rw [if_pos h1] at hp
      by_cases h2 : fs (resolveSegs (exam_asset_under_root exams_root exam_id rel_path))
          = .file
      · rw [if_pos h2] at hp
        injection hp with hp2
        subst hp2
        exact ⟨h1, h2, rfl⟩
      · rw [if_neg h2] at hp
        exact Except.noConfusion hp
    · rw [if_neg h1] at hp
      exact Except.noConfusion hp
  · intro h1
    have h1n : ¬ (relativeToOk exams_root
        (resolveSegs (exam_asset_under_root exams_root exam_id rel_path)) = true) := by
      simp [relativeToOk, h1]
    rw [himg, if_neg h1n]
  · intro h2
    rw [himg]
    by_cases h1 : relativeToOk exams_root
        (resolveSegs (exam_asset_under_root exams_root exam_id rel_path)) = true
    · rw [if_pos h1, if_neg h2]
    · rw [if_neg h1]

/-- Witness for C9 at a concrete escaping request: under the root
`/data/exams`, the request `exam_id = ".."`, `rel_path = "secret.txt"`
resolves to `/data/secret.txt`, outside the root, and yields a 404 whatever
the filesystem holds. -/
theorem image_serves_only_under_root_witness :
    image ["data", "exams"] (fun _ => FileKind.dir) ".." "secret.txt"
      = .error 404 :=
  (image_serves_only_under_root ["data", "exams"] (fun _ => FileKind.dir)
    ".." "secret.txt").2.1 rfl

/-! ### Helper lemmas for the folder-structure validators -/

theorem filter_isEmpty_forall {α : Type} {p : α → Bool} {l : List α}
    (h : (l.filter p).isEmpty) : ∀ x ∈ l, p x = false := by
  intro x hx
  cases hpx : p x
  · rfl
  · have hmem : x ∈ l.filter p := List.mem_filter.mpr ⟨hx, hpx⟩
    rw [List.isEmpty_iff] at h
    rw [h] at hmem
    exact absurd hmem (List.not_mem_nil x)

theorem filter_not_isEmpty {α : Type} {p : α → Bool} {l : List α} {x : α}
    (hx : x ∈ l) (hpx : p x = true) : (l.filter p).isEmpty = false := by
  have hmem : x ∈ l.filter p := List.mem_filter.mpr ⟨hx, hpx⟩
  cases hE : (l.filter p).isEmpty
  · rfl
  · rw [List.isEmpty_iff] at hE
    rw [hE] at hmem
    exact absurd hmem (List.not_mem_nil x)

theorem dup_filter_isEmpty_iff {l : List String} :
    (l.filter (fun num => l.count num > 1)).isEmpty = true ↔ l.Nodup := by
  constructor
  · intro h
    rw [List.nodup_iff_count_le_one]
    intro a
    by_contra hc
    push_neg at hc
    have hmem : a ∈ l := List.count_pos_iff.mp (by omega)
    have := filter_isEmpty_forall h a hmem
    simp at this
    omega
  · intro h
    cases hE : (l.filter (fun num => l.count num > 1)).isEmpty
    · exfalso
      rw [List.nodup_iff_count_le_one] at h
      have hne := List.isEmpty_eq_false_iff_exists_mem.mp hE
      obtain ⟨a, ha⟩ := hne
      have hcount := (List.mem_filter.mp ha).2
      have := h a
      simp at hcount
      omega
    · rfl

theorem from_question_dir_number {q : SubdirModel} {r : QuestionFolderStructure}
    (h : QuestionFolderStructure.from_question_dir q = .ok r) :
    r.number = q.name := by
  simp only [QuestionFolderStructure.from_question_dir] at h
  iterate 4 (all_goals try split at h)
  all_goals try exact Except.noConfusion h
  all_goals (injection h with h2; subst h2; rfl)

theorem mapM_from_question_dir_numbers {qdirs : List SubdirModel}
    {qs : List QuestionFolderStructure}
    (h : qdirs.mapM QuestionFolderStructure.from_question_dir = .ok qs) :
    qs.map (fun q => q.number) = qdirs.map (fun s => s.name) := by
  induction qdirs generalizing qs with
  | nil =>
    rw [List.mapM_nil] at h
    injection h with h2
    subst h2
    rfl
  | cons a as ih =>
    rw [List.mapM_cons] at h
    cases hfa : QuestionFolderStructure.from_question_dir a with
    | error e =>
      rw [hfa] at h
      exact Except.noConfusion h
    | ok r =>
      rw [hfa] at h
      cases hma : as.mapM QuestionFolderStructure.from_question_dir with
      | error e =>
        rw [hma] at h
        exact Except.noConfusion h
      | ok rs =>
        rw [hma] at h
        injection h with h2
        subst h2
        simp [from_question_dir_number hfa, ih hma]

theorem validate_error_of_dup (name : String) (rootDirs : List String)
    (questions : List QuestionFolderStructure)
    (h : ¬ (questions.map (fun q => q.number)).Nodup) :
    ∃ msg, ExamFolderStructure.validate name rootDirs questions = .error msg := by
  simp only [ExamFolderStructure.validate]
  by_cases h1 : (rootDirs.filter
      (fun d => !((questions.map (fun q => q.number)).contains d))).isEmpty
  · have hdup : ((questions.map (fun q => q.number)).filter
        (fun num => (questions.map (fun q => q.number)).count num > 1)).isEmpty
        = false := by
      cases hE : ((questions.map (fun q => q.number)).filter
          (fun num => (questions.map (fun q => q.number)).count num > 1)).isEmpty
      · rfl
      · exact absurd (dup_filter_isEmpty_iff.mp hE) h
    refine ⟨"Duplicate question numbers found in exam " ++ name, ?_⟩
    rw [if_neg (by rw [h1]; decide), if_pos (by rw [hdup]; rfl)]
  · simp only [Bool.not_eq_true] at h1
    refine ⟨"Unexpected directories found in exam folder " ++ name, ?_⟩
    rw [if_pos (by rw [h1]; rfl)]

/-! ### Theorem: exam folder validation (C5) -/

/-- C5.  `ExamFolderStructure.from_exam_dir` fails with a validation error
whenever the exam directory contains a subdirectory that is not a recognized
question directory (name not matching `q\d+`); the duplicate-question
validator rejects any question list carrying a duplicate question number; and
construction succeeds only on directories all of whose subdirectories are
uniquely-named question directories. -/
theorem from_exam_dir_validates (d : ExamDirModel) :
    ((∃ s ∈ d.subdirs, isQuestionDirName s.name = false) →
      ∃ msg, ExamFolderStructure.from_exam_dir d = .error msg) ∧
    (∀ (name : String) (rootDirs : List String)
        (questions : List QuestionFolderStructure),
      ¬ (questions.map (fun q => q.number)).Nodup →
        ∃ msg, ExamFolderStructure.validate name rootDirs questions = .error msg) ∧
    (∀ efs, ExamFolderStructure.from_exam_dir d = .ok efs →
      (∀ s ∈ d.subdirs, isQuestionDirName s.name = true) ∧
      (efs.questions.map (fun q => q.number)).Nodup) := by
  have hqdirs : ∀ t, t ∈ (d.subdirs.filter
        (fun s => isQuestionDirName s.name)).mergeSort
        (fun a b => decide (a.name ≤ b.name)) →
      isQuestionDirName t.name = true := by
    intro t ht
    have ht2 : t ∈ d.subdirs.filter (fun s => isQuestionDirName s.name) :=
      List.mem_mergeSort.mp ht
    simpa using (List.mem_filter.mp ht2).2
  refine ⟨?_, validate_error_of_dup, ?_⟩
  · rintro ⟨s, hs, hsq⟩
    simp only [ExamFolderStructure.from_exam_dir]
    cases hm : ((d.subdirs.filter (fun s => isQuestionDirName s.name)).mergeSort
        (fun a b => decide (a.name ≤ b.name))).mapM
        QuestionFolderStructure.from_question_dir with
    | error e => exact ⟨e, rfl⟩
    | ok qs =>
      have hnum := mapM_from_question_dir_numbers hm
      have hnotin : ((qs.map (fun q => q.number)).contains s.name) = false := by
        cases hc : ((qs.map (fun q => q.number)).contains s.name)
        · rfl
        · exfalso
          have hmem : s.name ∈ qs.map (fun q => q.number) := by
            simpa using hc
          rw [hnum] at hmem
          obtain ⟨t, ht, htn⟩ := List.mem_map.mp hmem
          have := hqdirs t ht
          rw [htn] at this
          rw [this] at hsq
          exact Bool.noConfusion hsq
      have hrootmem : s.name ∈ d.subdirs.map (fun s => s.name) :=
        List.mem_map.mpr ⟨s, hs, rfl⟩
      have hpx : (!((qs.map (fun q => q.number)).contains s.name)) = true := by
        rw [hnotin]
        rfl
      have hextra : ((d.subdirs.map (fun s => s.name)).filter
          (fun n => !((qs.map (fun q => q.number)).contains n))).isEmpty = false :=
        filter_not_isEmpty hrootmem hpx
      refine ⟨"Unexpected directories found in exam folder " ++ d.name, ?_⟩
      simp only [ExamFolderStructure.validate]
      rw [if_pos (by rw [hextra]; rfl)]
  · intro efs hok
    simp only [ExamFolderStructure.from_exam_dir] at hok
    cases hm : ((d.subdirs.filter (fun s => isQuestionDirName s.name)).mergeSort
        (fun a b => decide (a.name ≤ b.name))).mapM
        QuestionFolderStructure.from_question_dir with
    | error e =>
      rw [hm] at hok
      exact Except.noConfusion hok
    | ok qs =>
      rw [hm] at hok
      simp only [ExamFolderStructure.validate] at hok
      by_cases h1 : ((d.subdirs.map (fun s => s.name)).filter
          (fun n => !((qs.map (fun q => q.number)).contains n))).isEmpty
      · rw [if_neg (by rw [h1]; decide)] at hok
        by_cases h2 : ((qs.map (fun q => q.number)).filter
            (fun num => (qs.map (fun q => q.number)).count num > 1)).isEmpty
        · rw [if_neg (by rw [h2]; decide)] at hok
          injection hok with hok2
          subst hok2
          constructor
          · intro s hs
            have hsn : s.name ∈ d.subdirs.map (fun s => s.name) :=
              List.mem_map.mpr ⟨s, hs, rfl⟩
            have := filter_isEmpty_forall h1 s.name hsn
            have hcontains : ((qs.map (fun q => q.number)).contains s.name) = true := by
              cases hc : ((qs.map (fun q => q.number)).contains s.name)
              · rw [hc] at this
                exact Bool.noConfusion this
              · rfl
            have hmem : s.name ∈ qs.map (fun q => q.number) := by
              simpa using hcontains
            rw [mapM_from_question_dir_numbers hm] at hmem
            obtain ⟨t, ht, htn⟩ := List.mem_map.mp hmem
            have := hqdirs t ht
            rwa [htn] at this
          · exact dup_filter_isEmpty_iff.mp h2
        · simp only [Bool.not_eq_true] at h2
          rw [if_pos (by rw [h2]; rfl)] at hok
          exact Except.noConfusion hok
      · simp only [Bool.not_eq_true] at h1
        rw [if_pos (by rw [h1]; rfl)] at hok
        exact Except.noConfusion hok

/-- Witness for C5 at a concrete exam directory containing the non-question
subdirectory `"notes"`: construction fails with a validation error. -/
theorem from_exam_dir_validates_witness :
    ∃ msg, ExamFolderStructure.from_exam_dir
        ⟨"VW-1025-a-18-1-o",
          [⟨"q01", ["page1.png"], []⟩, ⟨"notes", [], []⟩]⟩
      = .error msg :=
  (from_exam_dir_validates
      ⟨"VW-1025-a-18-1-o", [⟨"q01", ["page1.png"], []⟩, ⟨"notes", [], []⟩]⟩).1
    ⟨⟨"notes", [], []⟩, by simp, rfl⟩

/-! ### JSON round-trip lemmas -/

theorem string_toList_mk (cs : List Char) : (String.mk cs).toList = cs := rfl

theorem skipJsonWs_quote (X : List Char) : skipJsonWs ('"' :: X) = '"' :: X := rfl

theorem skipJsonWs_rbracket (X : List Char) : skipJsonWs (']' :: X) = ']' :: X := rfl

theorem skipJsonWs_comma (X : List Char) : skipJsonWs (',' :: X) = ',' :: X := rfl

theorem skipJsonWs_lbracket (X : List Char) : skipJsonWs ('[' :: X) = '[' :: X := rfl

theorem parseHexDigit_hexDigitChar {m : Nat} (hm : m < 16) :
    parseHexDigit (hexDigitChar m) = some m := by
  interval_cases m <;> rfl

theorem parse_body_u (h3 h4 : Char) (tail : List Char) :
    parseJsonStringBody ('\\' :: 'u' :: '0' :: '0' :: h3 :: h4 :: tail)
      = match parseU '0' '0' h3 h4 with
        | some u => (parseJsonStringBody tail).map (fun sr => (u :: sr.1, sr.2))
        | none => none := rfl

theorem parseU_some {h1 h2 h3 h4 : Char} {a b c d : Nat}
    (e1 : parseHexDigit h1 = some a) (e2 : parseHexDigit h2 = some b)
    (e3 : parseHexDigit h3 = some c) (e4 : parseHexDigit h4 = some d) :
    parseU h1 h2 h3 h4
      = if (((a * 16 + b) * 16 + c) * 16 + d).isValidChar
        then some (Char.ofNat (((a * 16 + b) * 16 + c) * 16 + d)) else none := by
  unfold parseU
  rw [e1, e2, e3, e4]

theorem parseU_eval {a b : Nat} (ha : a < 16) (hb : b < 16)
    (hv : (a * 16 + b).isValidChar) :
    parseU '0' '0' (hexDigitChar a) (hexDigitChar b)
      = some (Char.ofNat (a * 16 + b)) := by
  rw [parseU_some (show parseHexDigit '0' = some 0 from rfl)
    (show parseHexDigit '0' = some 0 from rfl)
    (parseHexDigit_hexDigitChar ha) (parseHexDigit_hexDigitChar hb)]
  have harith : ((0 * 16 + 0) * 16 + a) * 16 + b = a * 16 + b := by ring
  rw [harith, if_pos hv]

theorem parse_step (c : Char) (tail : List Char) :
    parseJsonStringBody (encodeJsonChar c ++ tail)
      = (parseJsonStringBody tail).map (fun sr => (c :: sr.1, sr.2)) := by
  by_cases h1 : c = '"'
  · subst h1; rfl
  by_cases h2 : c = '\\'
  · subst h2; rfl
  by_cases h3 : c = '\n'
  · subst h3; rfl
  by_cases h4 : c = '\t'
  · subst h4; rfl
  by_cases h5 : c = '\r'
  · subst h5; rfl
  by_cases h6 : c = '\x08'
  · subst h6; rfl
  by_cases h7 : c = '\x0c'
  · subst h7; rfl
  by_cases h8 : c.toNat < 32
  · have henc : encodeJsonChar c
        = ['\\', 'u', '0', '0', hexDigitChar (c.toNat / 16), hexDigitChar (c.toNat % 16)] := by
      unfold encodeJsonChar
      rw [if_neg h1, if_neg h2, if_neg h3, if_neg h4, if_neg h5, if_neg h6, if_neg h7,
        if_pos h8]
    have ha : c.toNat / 16 < 16 := by omega
    have hb : c.toNat % 16 < 16 := by omega
    have harith : c.toNat / 16 * 16 + c.toNat % 16 = c.toNat := by omega
    have hv : (c.toNat / 16 * 16 + c.toNat % 16).isValidChar := by
      rw [harith]
      exact Or.inl (by omega)
    rw [henc, List.cons_append, List.cons_append, List.cons_append, List.cons_append,
      List.cons_append, List.cons_append, List.nil_append, parse_body_u,
      parseU_eval ha hb hv, harith, Char.ofNat_toNat]
  · have henc : encodeJsonChar c = [c] := by
      unfold encodeJsonChar
      rw [if_neg h1, if_neg h2, if_neg h3, if_neg h4, if_neg h5, if_neg h6, if_neg h7,
        if_neg h8]
    rw [henc, List.cons_append, List.nil_append, parseJsonStringBody.eq_def]
    simp only []
    rw [if_neg h1, if_neg h2, if_neg h8]

theorem parse_encoded (cs rest : List Char) :
    parseJsonStringBody ((cs.map encodeJsonChar).flatten ++ '"' :: rest)
      = some (cs, rest) := by
  induction cs with
  | nil =>
    have h : (List.map encodeJsonChar ([] : List Char)).flatten ++ '"' :: rest
        = '"' :: rest := rfl
    rw [h, parseJsonStringBody.eq_def]
    simp
  | cons c cs ih =>
    rw [List.map_cons, List.flatten_cons, List.append_assoc, parse_step, ih]
    rfl

theorem parse_encoded_str (s : String) (rest : List Char) :
    parseJsonStringBody (encodeJsonStringChars s ++ '"' :: rest)
      = some (s.toList, rest) :=
  parse_encoded s.toList rest

theorem items_step_quote (fuel : Nat) (rest : List Char) :
    parseJsonStringItems (fuel + 1) ('"' :: rest)
      = match parseJsonStringBody rest with
        | none => none
        | some (s, rest2) =>
          match skipJsonWs rest2 with
          | ',' :: rest3 =>
            (match parseJsonStringItems fuel rest3 with
             | some (ss, r) => some (s :: ss, r)
             | none => none)
          | ']' :: rest3 => some ([s], rest3)
          | _ => none := rfl

theorem items_succ_space (fuel : Nat) (X : List Char) :
    parseJsonStringItems (fuel + 1) (' ' :: X)
      = parseJsonStringItems (fuel + 1) X := rfl

theorem parse_items_encoded :
    ∀ (l : List String) (s : String) (fuel : Nat) (tail : List Char),
      l.length ≤ fuel →
      parseJsonStringItems (fuel + 1)
          (joinCommaSpace ((s :: l).map quoteEnc) ++ ']' :: tail)
        = some ((s :: l).map String.toList, tail) := by
  intro l
  induction l with
  | nil =>
    intro s fuel tail _
    have h1 : joinCommaSpace ([s].map quoteEnc) ++ ']' :: tail
        = '"' :: (encodeJsonStringChars s ++ ('"' :: ']' :: tail)) := by
      simp [joinCommaSpace, quoteEnc]
    rw [h1, items_step_quote, parse_encoded_str]
    simp [skipJsonWs_rbracket]
  | cons t M ih =>
    intro s fuel tail hfuel
    have h1 : joinCommaSpace ((s :: t :: M).map quoteEnc) ++ ']' :: tail
        = '"' :: (encodeJsonStringChars s ++ ('"' :: ',' :: ' ' ::
            (joinCommaSpace ((t :: M).map quoteEnc) ++ ']' :: tail))) := by
      simp [joinCommaSpace, quoteEnc]
    obtain ⟨fuel2, rfl⟩ : ∃ f2, fuel = f2 + 1 := by
      cases fuel with
      | zero => simp at hfuel
      | succ f2 => exact ⟨f2, rfl⟩
    rw [h1, items_step_quote, parse_encoded_str]
    have hM : M.length ≤ fuel2 := by
      simp at hfuel
      omega
    have hih := ih t fuel2 tail hM
    simp only [List.map_cons] at hih
    simp [skipJsonWs_comma, items_succ_space, hih]

theorem length_le_joinCommaSpace_quote (L : List String) :
    L.length ≤ (joinCommaSpace (L.map quoteEnc)).length + 1 := by
  induction L with
  | nil => simp
  | cons s L ih =>
    cases L with
    | nil => simp [joinCommaSpace, quoteEnc]
    | cons t M =>
      have hjoin : joinCommaSpace ((s :: t :: M).map quoteEnc)
          = quoteEnc s ++ ',' :: ' ' :: joinCommaSpace ((t :: M).map quoteEnc) := rfl
      rw [hjoin]
      simp only [List.length_cons, List.length_append, List.length_cons] at ih ⊢
      omega

theorem loads_step (rest : List Char) :
    json_loads_str_list (String.mk ('[' :: rest))
      = match skipJsonWs rest with
        | c2 :: rest2 =>
          if c2 = ']' then (if (skipJsonWs rest2).isEmpty then some [] else none)
          else
            match parseJsonStringItems (('[' :: rest).length + 1) rest with
            | some (items, r2) =>
              if (skipJsonWs r2).isEmpty then some (items.map String.mk) else none
            | none => none
        | [] => none := by
  rfl

/-- The core round-trip: decoding an encoded path list recovers it exactly. -/
theorem json_loads_dumps (l : List String) :
    json_loads_str_list (json_dumps_str_list l) = some l := by
  cases l with
  | nil => rfl
  | cons s ls =>
    have hhead : ∃ Y, joinCommaSpace ((s :: ls).map quoteEnc) = '"' :: Y := by
      cases ls with
      | nil => exact ⟨_, rfl⟩
      | cons t M => exact ⟨_, rfl⟩
    obtain ⟨Y, hY⟩ := hhead
    have hlen : ls.length ≤ ('[' :: (joinCommaSpace ((s :: ls).map quoteEnc)
        ++ [']'])).length := by
      have := length_le_joinCommaSpace_quote (s :: ls)
      simp only [List.length_cons, List.length_append] at this ⊢
      omega
    have hitems := parse_items_encoded ls s
      (('[' :: (joinCommaSpace ((s :: ls).map quoteEnc) ++ [']'])).length) [] hlen
    have hdumps : json_dumps_str_list (s :: ls)
        = String.mk ('[' :: (joinCommaSpace ((s :: ls).map quoteEnc) ++ [']'])) := rfl
    rw [hdumps, loads_step]
    rw [hY] at hitems ⊢
    simp only [List.cons_append] at hitems ⊢
    rw [skipJsonWs_quote]
    simp only []
    rw [if_neg (show ¬('"' : Char) = ']' from by decide)]
    rw [show (']' : Char) :: ([] : List Char) = [']'] from rfl] at hitems
    rw [hitems]
    simp [List.map_map, Function.comp_def, string_mk_toList, skipJsonWs]

/-! ### Theorem: vector-store attribute round-trip (C4) -/

/-- C4.  For every `QuestionRecord`, the JSON-encoded list attributes written
by `attributes_for_vector_store` decode back via `get_page_images`,
`get_figure_images` and `get_source_images` to the record's original path
lists, a `None` optional list encoding and decoding as the empty list. -/
theorem attributes_for_vector_store_roundtrip (r : QuestionRecord) :
    r.attributes_for_vector_store.get_page_images
      = some (r.page_images.getD []) ∧
    r.attributes_for_vector_store.get_figure_images
      = some (r.figure_images.getD []) ∧
    r.attributes_for_vector_store.get_source_images
      = some r.source_images :=
  ⟨json_loads_dumps (r.page_images.getD []),
   json_loads_dumps (r.figure_images.getD []),
   json_loads_dumps r.source_images⟩

end ExerciseFinder
